import Mathlib

/-!
Verification of the threshold-classification and aggregation core of the
NBA interactive statistics viewer (source: NBAAnalysis.py).

The embedding models one rerun of the script body after the Normalizer
boundary: rows carry a parsed date, a player string, and the selected stat
column already coerced with pandas to_numeric (a missing or non-numeric
entry is `none`, the image of NaN).  Stat values are rationals, dates are
integers ordered as calendar dates.
-/

namespace NBAAnalysis

/-- The three classes an observation can fall into relative to a threshold. -/
inductive Classification where
  | ABOVE
  | BELOW
  | AT
deriving DecidableEq

/-- The classification conditional shared verbatim by the pie loop
(lines 113-122) and the time-series loop (lines 167-175):
`if val > threshold: ... elif val < threshold: ... else: ...`. -/
def classify (val threshold : ℚ) : Classification :=
  if val > threshold then .ABOVE
  else if val < threshold then .BELOW
  else .AT

/-- The wedge colour chosen in the pie loop (lines 114-121). -/
def pieColor (val threshold : ℚ) : String :=
  if val > threshold then "green"
  else if val < threshold then "red"
  else "gray"

/-- One game-log row reaching the core: parsed `Date`, `Player`, and the
selected stat column after `pd.to_numeric(..., errors=coerce)` (`none`
models NaN, i.e. a missing or non-numeric entry). -/
structure Row where
  date : Int
  player : String
  stat : Option ℚ
deriving DecidableEq

/-- Line 82: `filtered_df = nba_logs_df[(Date >= start_date) & (Date <= end_date)]`. -/
def filtered_df (rows : List Row) (start_date end_date : Int) : List Row :=
  rows.filter (fun r => decide (start_date ≤ r.date ∧ r.date ≤ end_date))

/-- Line 83: `player_df = filtered_df[filtered_df[Player] == selected_player].copy()`. -/
def player_df_rows (rows : List Row) (selected_player : String)
    (start_date end_date : Int) : List Row :=
  (filtered_df rows start_date end_date).filter (fun r => r.player == selected_player)

/-- Lines 86-87 and 159: after coercing the selected stat and dropping NaN
rows, the (date, value) pairs feeding both chart sections, in dataframe
order. -/
def playerData (rows : List Row) (selected_player : String)
    (start_date end_date : Int) : List (Int × ℚ) :=
  (player_df_rows rows selected_player start_date end_date).filterMap
    (fun r => r.stat.map (fun v => (r.date, v)))

/-- Ascending sort of stat values, modelling `sort_index()`. -/
def sortAsc (l : List ℚ) : List ℚ :=
  l.insertionSort (· ≤ ·)

/-- Line 104: `stat_counts = player_df[selected_stat].value_counts().sort_index()`:
one entry per distinct observed value, in ascending order, paired with the
number of rows having that value. -/
def stat_counts (vals : List ℚ) : List (ℚ × Nat) :=
  (sortAsc vals.dedup).map (fun v => (v, vals.count v))

/-- The per-colour row totals accumulated by the pie loop. -/
structure ColorCategories where
  green : Nat
  red : Nat
  gray : Nat
deriving DecidableEq

/-- The body of the pie loop (lines 113-122): one wedge updates the colour
totals by its full row count. -/
def catStep (threshold : ℚ) (acc : ColorCategories) (vc : ℚ × Nat) : ColorCategories :=
  if vc.1 > threshold then { acc with green := acc.green + vc.2 }
  else if vc.1 < threshold then { acc with red := acc.red + vc.2 }
  else { acc with gray := acc.gray + vc.2 }

/-- Lines 111-122: `color_categories` after the pie loop has run over
`zip(stat_counts.index, stat_counts.values)`. -/
def color_categories (counts : List (ℚ × Nat)) (threshold : ℚ) : ColorCategories :=
  counts.foldl (catStep threshold) ⟨0, 0, 0⟩

/-- The colour-breakdown table of lines 139-152: counts and percentages per
class (percentage as an exact ratio, before the two-decimal formatting). -/
structure Breakdown where
  greenCount : Nat
  redCount : Nat
  grayCount : Nat
  greenPct : ℚ
  redPct : ℚ
  grayPct : ℚ
deriving DecidableEq

/-- Lines 104-153: the pie-chart section.  `none` is the
"No data available to display pie chart." branch (lines 105-106);
otherwise the breakdown table with `total_entries = sum(color_categories.values())`
(lines 137-152). -/
def pieView (vals : List ℚ) (threshold : ℚ) : Option Breakdown :=
  let counts := stat_counts vals
  if counts.isEmpty then none
  else
    let cc := color_categories counts threshold
    let total : ℚ := ((cc.green + cc.red + cc.gray : Nat) : ℚ)
    some { greenCount := cc.green, redCount := cc.red, grayCount := cc.gray,
           greenPct := (cc.green : ℚ) / total,
           redPct := (cc.red : ℚ) / total,
           grayPct := (cc.gray : ℚ) / total }

/-- Lines 166-175: the time-series loop counting bars at or above the
threshold (`+1` in the strictly-above branch and in the tie branch). -/
def count_at_or_above (vals : List ℚ) (threshold : ℚ) : Nat :=
  vals.foldl
    (fun acc val =>
      if val > threshold then acc + 1
      else if val < threshold then acc
      else acc + 1)
    0

/-- The "Games at or above threshold: q/n (p%)" report of lines 186-187. -/
structure ChronoReport where
  qualifying : Nat
  total : Nat
  pct : ℚ
deriving DecidableEq

/-- Lines 158-187: the time-series section.  `none` is the
"No data available in selected date range." branch (lines 161-162);
otherwise the qualifying report of line 187. -/
def tsView (data : List (Int × ℚ)) (threshold : ℚ) : Option ChronoReport :=
  if data.isEmpty then none
  else
    let q := count_at_or_above (data.map Prod.snd) threshold
    some { qualifying := q, total := data.length,
           pct := (q : ℚ) / (data.length : ℚ) }

/-- `Series.max()` of a nonempty pandas series (0 is never reached by the
callers, which guard emptiness first). -/
def seriesMax : List ℚ → ℚ
  | [] => 0
  | x :: xs => xs.foldl max x

/-- `Series.median()` of a nonempty pandas series: the middle element of the
sorted values, or the mean of the two middle elements for even length. -/
def seriesMedian (vals : List ℚ) : ℚ :=
  let s := sortAsc vals
  if s.length % 2 = 1 then s.getD (s.length / 2) 0
  else (s.getD (s.length / 2 - 1) 0 + s.getD (s.length / 2) 0) / 2

/-- Line 90: `max_val = player_df[selected_stat].max() if not player_df.empty else 100.0`. -/
def max_val (vals : List ℚ) : ℚ :=
  if vals.isEmpty then 100 else seriesMax vals

/-- Line 91: `default_thresh = player_df[selected_stat].median() if not player_df.empty else 0.0`. -/
def default_thresh (vals : List ℚ) : ℚ :=
  if vals.isEmpty then 0 else seriesMedian vals

/-- The bounds and default handed to the threshold number input. -/
structure ThresholdWidget where
  minValue : ℚ
  maxValue : ℚ
  value : ℚ
deriving DecidableEq

/-- Lines 93-99: `st.sidebar.number_input("Set Threshold", min_value=0.0,
max_value=float(max_val) if max_val > 0 else 100.0, value=float(default_thresh), ...)`. -/
def thresholdWidget (vals : List ℚ) : ThresholdWidget :=
  { minValue := 0,
    maxValue := if max_val vals > 0 then max_val vals else 100,
    value := default_thresh vals }

end NBAAnalysis

namespace NBAAnalysis

/-- `classify` decides strictly-above exactly. -/
theorem classify_eq_above_iff (v t : ℚ) : classify v t = .ABOVE ↔ v > t := by
  unfold classify
  split_ifs with h1 h2
  · simp [h1]
  · simp [h1]
  · simp [h1]

/-- `classify` decides strictly-below exactly. -/
theorem classify_eq_below_iff (v t : ℚ) : classify v t = .BELOW ↔ v < t := by
  unfold classify
  split_ifs with h1 h2
  · simp [lt_asymm h1]
  · simp [h2]
  · simp [h2]

/-- `classify` decides exact equality with the threshold. -/
theorem classify_eq_at_iff (v t : ℚ) : classify v t = .AT ↔ v = t := by
  unfold classify
  split_ifs with h1 h2
  · simp [ne_of_gt h1]
  · simp [ne_of_lt h2]
  · simp [le_antisymm (not_lt.mp h1) (not_lt.mp h2)]

/-- C1: for every numeric value and threshold the classifier assigns exactly
one of the three labels by exact comparison — ABOVE (rendered green) iff
value > threshold, BELOW (red) iff value < threshold, AT (gray) iff
value = threshold — so the three classes partition the inputs with no
overlap and no omission, with no epsilon tolerance. -/
theorem C1_classifier_partition (v t : ℚ) :
    (classify v t = .ABOVE ↔ v > t) ∧
    (classify v t = .BELOW ↔ v < t) ∧
    (classify v t = .AT ↔ v = t) ∧
    (pieColor v t = "green" ↔ classify v t = .ABOVE) ∧
    (pieColor v t = "red" ↔ classify v t = .BELOW) ∧
    (pieColor v t = "gray" ↔ classify v t = .AT) := by
  refine ⟨classify_eq_above_iff v t, classify_eq_below_iff v t, classify_eq_at_iff v t, ?_, ?_, ?_⟩ <;>
    · unfold pieColor classify
      split_ifs <;> simp

/-- The time-series loop fold, with an explicit accumulator: it counts the
values that are not strictly below the threshold. -/
theorem count_at_or_above_go (t : ℚ) (vals : List ℚ) (acc : Nat) :
    vals.foldl
        (fun a v => if v > t then a + 1 else if v < t then a else a + 1) acc
      = acc + vals.countP (fun v => !decide (v < t)) := by
  induction vals generalizing acc with
  | nil => simp
  | cons v vs ih =>
    simp only [List.foldl_cons, ih, List.countP_cons]
    by_cases h1 : t < v
    · simp [if_pos h1, lt_asymm h1]
      omega
    · by_cases h2 : v < t
      · simp [if_neg h1, if_pos h2, h2]
      · simp [if_neg h1, if_neg h2, h2]
        omega

/-- `count_at_or_above` counts exactly the rows whose value is not strictly
below the threshold. -/
theorem count_at_or_above_eq_countP (vals : List ℚ) (t : ℚ) :
    count_at_or_above vals t = vals.countP (fun v => !decide (v < t)) := by
  rw [count_at_or_above, count_at_or_above_go]
  simp

/-- Green total of the pie fold: the summed counts of the wedges strictly
above the threshold. -/
theorem catFold_green (t : ℚ) (counts : List (ℚ × Nat)) (acc : ColorCategories) :
    (counts.foldl (catStep t) acc).green
      = acc.green + ((counts.filter (fun vc => decide (t < vc.1))).map Prod.snd).sum := by
  induction counts generalizing acc with
  | nil => simp
  | cons vc rest ih =>
    simp only [List.foldl_cons, ih, List.filter_cons]
    by_cases h1 : t < vc.1
    · simp [catStep, h1]
      omega
    · by_cases h2 : vc.1 < t <;> simp [catStep, h1, h2]

/-- Red total of the pie fold: the summed counts of the wedges strictly
below the threshold. -/
theorem catFold_red (t : ℚ) (counts : List (ℚ × Nat)) (acc : ColorCategories) :
    (counts.foldl (catStep t) acc).red
      = acc.red + ((counts.filter (fun vc => !decide (t < vc.1) && decide (vc.1 < t))).map Prod.snd).sum := by
  induction counts generalizing acc with
  | nil => simp
  | cons vc rest ih =>
    simp only [List.foldl_cons, ih, List.filter_cons]
    by_cases h1 : t < vc.1
    · simp [catStep, h1]
    · by_cases h2 : vc.1 < t
      · simp [catStep, h1, h2]
        omega
      · simp [catStep, h1, h2]

/-- Gray total of the pie fold: the summed counts of the wedges tying the
threshold. -/
theorem catFold_gray (t : ℚ) (counts : List (ℚ × Nat)) (acc : ColorCategories) :
    (counts.foldl (catStep t) acc).gray
      = acc.gray + ((counts.filter (fun vc => !decide (t < vc.1) && !decide (vc.1 < t))).map Prod.snd).sum := by
  induction counts generalizing acc with
  | nil => simp
  | cons vc rest ih =>
    simp only [List.foldl_cons, ih, List.filter_cons]
    by_cases h1 : t < vc.1
    · simp [catStep, h1]
    · by_cases h2 : vc.1 < t
      · simp [catStep, h1, h2]
      · simp [catStep, h1, h2]
        omega

/-- The sorted value-counts list is a permutation of the dedup list paired
with counts, so summing a class of wedges counts the matching rows. -/
theorem stat_counts_class_sum (vals : List ℚ) (p : ℚ → Bool) :
    (((stat_counts vals).filter (fun vc => p vc.1)).map Prod.snd).sum = vals.countP p := by
  unfold stat_counts sortAsc
  rw [List.filter_map, List.map_map]
  have hcomp : ((fun vc : ℚ × Nat => p vc.1) ∘ fun v => (v, vals.count v)) = p := rfl
  have hcomp2 : (Prod.snd ∘ fun v : ℚ => (v, vals.count v)) = fun v => vals.count v := rfl
  rw [hcomp, hcomp2]
  have hperm : List.Perm
      (((vals.dedup.insertionSort (· ≤ ·)).filter p).map (fun v => vals.count v))
      ((vals.dedup.filter p).map (fun v => vals.count v)) :=
    ((List.perm_insertionSort _ vals.dedup).filter p).map _
  rw [hperm.sum_eq]
  exact List.sum_map_count_dedup_filter_eq_countP p vals

/-- Counting the not-strictly-below rows splits into strictly-above rows and
exact ties. -/
theorem countP_not_lt_split (vals : List ℚ) (t : ℚ) :
    vals.countP (fun v => !decide (v < t))
      = vals.countP (fun v => decide (t < v)) + vals.countP (fun v => decide (v = t)) := by
  induction vals with
  | nil => rfl
  | cons v vs ih =>
    simp only [List.countP_cons, ih]
    rcases lt_trichotomy v t with h | h | h
    · simp [h, lt_asymm h, ne_of_lt h]
    · subst h
      simp
      omega
    · simp [lt_asymm h, h, ne_of_gt h]
      omega

/-- The red branch condition of the pie loop is plain strictly-below. -/
theorem red_pred_eq (t v : ℚ) : (!decide (t < v) && decide (v < t)) = decide (v < t) := by
  by_cases h : v < t
  · simp [h, lt_asymm h]
  · simp [h]

/-- The gray branch condition of the pie loop is exact equality. -/
theorem gray_pred_eq (t v : ℚ) : (!decide (t < v) && !decide (v < t)) = decide (v = t) := by
  rcases lt_trichotomy v t with h | h | h
  · simp [h, ne_of_lt h]
  · subst h
    simp
  · simp [h, ne_of_gt h]

/-- The green total of the distribution view counts the strictly-above rows. -/
theorem color_categories_green (vals : List ℚ) (t : ℚ) :
    (color_categories (stat_counts vals) t).green = vals.countP (fun v => decide (t < v)) := by
  rw [color_categories, catFold_green, stat_counts_class_sum vals (fun v => decide (t < v))]
  simp

/-- The red total of the distribution view counts the strictly-below rows. -/
theorem color_categories_red (vals : List ℚ) (t : ℚ) :
    (color_categories (stat_counts vals) t).red = vals.countP (fun v => decide (v < t)) := by
  rw [color_categories, catFold_red,
    stat_counts_class_sum vals (fun v => !decide (t < v) && decide (v < t))]
  simp only [red_pred_eq, Nat.zero_add]

/-- The gray total of the distribution view counts the exact ties. -/
theorem color_categories_gray (vals : List ℚ) (t : ℚ) :
    (color_categories (stat_counts vals) t).gray = vals.countP (fun v => decide (v = t)) := by
  rw [color_categories, catFold_gray,
    stat_counts_class_sum vals (fun v => !decide (t < v) && !decide (v < t))]
  simp only [gray_pred_eq, Nat.zero_add]

/-- The three distribution totals sum to the number of filtered rows. -/
theorem categories_total (vals : List ℚ) (t : ℚ) :
    (color_categories (stat_counts vals) t).green
      + (color_categories (stat_counts vals) t).red
      + (color_categories (stat_counts vals) t).gray = vals.length := by
  rw [color_categories_green, color_categories_red, color_categories_gray]
  induction vals with
  | nil => rfl
  | cons v vs ih =>
    simp only [List.countP_cons, List.length_cons]
    rcases lt_trichotomy v t with h | h | h
    · simp [h, lt_asymm h, ne_of_lt h]
      omega
    · subst h
      simp
      omega
    · simp [h, lt_asymm h, ne_of_gt h]
      omega

/-- Spec-side counts for the refinement comparison of the two views:
classify every row-level observation individually, as Chronological mode
does, and total the rows per class. -/
def rowCategoriesSpec (vals : List ℚ) (t : ℚ) : ColorCategories :=
  { green := (vals.filter (fun v => decide (classify v t = .ABOVE))).length,
    red := (vals.filter (fun v => decide (classify v t = .BELOW))).length,
    gray := (vals.filter (fun v => decide (classify v t = .AT))).length }

/-- Deciding the ABOVE class is deciding strictly-above. -/
theorem classify_above_decide (t v : ℚ) :
    decide (classify v t = .ABOVE) = decide (t < v) :=
  decide_eq_decide.mpr (classify_eq_above_iff v t)

/-- Deciding the BELOW class is deciding strictly-below. -/
theorem classify_below_decide (t v : ℚ) :
    decide (classify v t = .BELOW) = decide (v < t) :=
  decide_eq_decide.mpr (classify_eq_below_iff v t)

/-- Deciding the AT class is deciding exact equality. -/
theorem classify_at_decide (t v : ℚ) :
    decide (classify v t = .AT) = decide (v = t) :=
  decide_eq_decide.mpr (classify_eq_at_iff v t)

/-- Eta form of the category record. -/
theorem colorCategories_eta (c : ColorCategories) : c = ⟨c.green, c.red, c.gray⟩ := rfl

/-- C2: for every filtered value sequence and threshold, the per-class
counts of Distribution mode (group rows by distinct value, classify each
distinct value once, sum group sizes per class) equal the per-class counts
from classifying every row individually as Chronological mode does; in
particular the qualifying count of the time-series view is the green plus
gray total of the pie view. -/
theorem C2_distribution_agrees_with_rows (vals : List ℚ) (t : ℚ) :
    color_categories (stat_counts vals) t = rowCategoriesSpec vals t ∧
    count_at_or_above vals t
      = (color_categories (stat_counts vals) t).green
        + (color_categories (stat_counts vals) t).gray := by
  constructor
  · rw [colorCategories_eta (color_categories (stat_counts vals) t),
      colorCategories_eta (rowCategoriesSpec vals t)]
    simp only [rowCategoriesSpec, color_categories_green, color_categories_red,
      color_categories_gray, ← List.countP_eq_length_filter,
      classify_above_decide, classify_below_decide, classify_at_decide]
  · rw [count_at_or_above_eq_countP, countP_not_lt_split,
      color_categories_green, color_categories_gray]

/-- The at-or-above condition of the time-series loop is membership in the
ABOVE or AT class. -/
theorem qualifying_pred_eq (t v : ℚ) :
    (!decide (v < t)) = decide (classify v t = .ABOVE ∨ classify v t = .AT) := by
  have hiff : (classify v t = .ABOVE ∨ classify v t = .AT) ↔ ¬ v < t := by
    rw [classify_eq_above_iff, classify_eq_at_iff]
    constructor
    · rintro (h | h)
      · exact lt_asymm h
      · subst h
        exact lt_irrefl v
    · intro h
      rcases lt_trichotomy v t with h2 | h2 | h2
      · exact absurd h2 h
      · exact Or.inr h2
      · exact Or.inl h2
  rw [decide_eq_decide.mpr hiff, decide_not]

/-- C3: in Chronological mode, for every non-empty filtered sequence and
every threshold, every row is classified individually, the qualifying count
is the number of rows classified ABOVE or AT, and the report is
qualifying count over total row count with its percentage. -/
theorem C3_chronological_report (data : List (Int × ℚ)) (t : ℚ) (h : data ≠ []) :
    tsView data t =
      some { qualifying := (data.filter
               (fun dv => decide (classify dv.2 t = .ABOVE ∨ classify dv.2 t = .AT))).length,
             total := data.length,
             pct := ((data.filter
               (fun dv => decide (classify dv.2 t = .ABOVE ∨ classify dv.2 t = .AT))).length : ℚ)
               / (data.length : ℚ) } := by
  have hq : count_at_or_above (data.map Prod.snd) t
      = (data.filter
          (fun dv => decide (classify dv.2 t = .ABOVE ∨ classify dv.2 t = .AT))).length := by
    rw [count_at_or_above_eq_countP, List.countP_map, ← List.countP_eq_length_filter]
    congr 1
    funext dv
    exact qualifying_pred_eq t dv.2
  simp [tsView, h, hq]

/-- C3 witness: the chronological report on two games with values 3 and 1
against threshold 2. -/
theorem C3_chronological_report_witness :
    ([((1:Int), (3:ℚ)), ((2:Int), (1:ℚ))] ≠ ([] : List (Int × ℚ))) ∧
    tsView [((1:Int), (3:ℚ)), ((2:Int), (1:ℚ))] 2 =
      some { qualifying := 1, total := 2, pct := 1/2 } := by
  refine ⟨by decide, ?_⟩
  have hf : ([((1:Int), (3:ℚ)), ((2:Int), (1:ℚ))].filter
      (fun dv => decide (classify dv.2 2 = .ABOVE ∨ classify dv.2 2 = .AT)))
        = [((1:Int), (3:ℚ))] := by decide
  rw [C3_chronological_report _ 2 (by decide), hf]
  norm_num

/-- The value-counts list is empty only for an empty value sequence. -/
theorem stat_counts_length (vals : List ℚ) :
    (stat_counts vals).length = vals.dedup.length := by
  unfold stat_counts sortAsc
  rw [List.length_map, (List.perm_insertionSort _ _).length_eq]

/-- A non-empty value sequence yields a non-empty value-counts list. -/
theorem stat_counts_ne_nil (vals : List ℚ) (h : vals ≠ []) : stat_counts vals ≠ [] := by
  intro hc
  have h0 : vals.dedup.length = 0 := by
    rw [← stat_counts_length, hc]
    rfl
  exact h ((List.dedup_eq_nil vals).mp (List.length_eq_zero.mp h0))

/-- C4: for every non-empty filtered sequence and threshold the three
Distribution-mode class counts sum to the number of filtered rows (not to
the number of distinct values), and each class percentage is its count
divided by that total. -/
theorem C4_distribution_totals (vals : List ℚ) (t : ℚ) (h : vals ≠ []) :
    ∃ b : Breakdown, pieView vals t = some b ∧
      b.greenCount + b.redCount + b.grayCount = vals.length ∧
      b.greenPct = (b.greenCount : ℚ) / (vals.length : ℚ) ∧
      b.redPct = (b.redCount : ℚ) / (vals.length : ℚ) ∧
      b.grayPct = (b.grayCount : ℚ) / (vals.length : ℚ) := by
  have htot := categories_total vals t
  have hne : ¬ (stat_counts vals).isEmpty = true := by
    simp [List.isEmpty_iff, stat_counts_ne_nil vals h]
  have hcast : (((color_categories (stat_counts vals) t).green
      + (color_categories (stat_counts vals) t).red
      + (color_categories (stat_counts vals) t).gray : Nat) : ℚ) = (vals.length : ℚ) := by
    exact_mod_cast congrArg (fun n : Nat => (n : ℚ)) htot
  refine ⟨{ greenCount := (color_categories (stat_counts vals) t).green,
            redCount := (color_categories (stat_counts vals) t).red,
            grayCount := (color_categories (stat_counts vals) t).gray,
            greenPct := ((color_categories (stat_counts vals) t).green : ℚ) / (vals.length : ℚ),
            redPct := ((color_categories (stat_counts vals) t).red : ℚ) / (vals.length : ℚ),
            grayPct := ((color_categories (stat_counts vals) t).gray : ℚ) / (vals.length : ℚ) },
          ?_, htot, rfl, rfl, rfl⟩
  simp only [pieView, hne, if_false, Bool.false_eq_true, ite_false, hcast]

/-- C4 witness: the distribution totals on values 1 and 2 against
threshold 1. -/
theorem C4_distribution_totals_witness :
    ∃ b : Breakdown, pieView [(1:ℚ), 2] 1 = some b ∧
      b.greenCount + b.redCount + b.grayCount = [(1:ℚ), 2].length ∧
      b.greenPct = (b.greenCount : ℚ) / (([(1:ℚ), 2].length : Nat) : ℚ) ∧
      b.redPct = (b.redCount : ℚ) / (([(1:ℚ), 2].length : Nat) : ℚ) ∧
      b.grayPct = (b.grayCount : ℚ) / (([(1:ℚ), 2].length : Nat) : ℚ) :=
  C4_distribution_totals [1, 2] 1 (by decide)

/-- C5: when the filtered set is empty, both the distribution view and the
chronological view return their explicit no-data output (the `none`
branches printing "No data available ..."), so neither reaches a division
or any other computation on the empty frame. -/
theorem C5_empty_no_data (rows : List Row) (selected_player : String)
    (start_date end_date : Int) (t : ℚ)
    (h : playerData rows selected_player start_date end_date = []) :
    pieView ((playerData rows selected_player start_date end_date).map Prod.snd) t = none ∧
    tsView (playerData rows selected_player start_date end_date) t = none := by
  rw [h]
  exact ⟨rfl, rfl⟩

/-- C5 witness: a dataset whose only row belongs to another player leaves
the filtered set empty, and both views report no data. -/
theorem C5_empty_no_data_witness :
    (playerData [({ date := 0, player := "B", stat := some 1 } : Row)] "A" 0 10 = []) ∧
    pieView ((playerData [({ date := 0, player := "B", stat := some 1 } : Row)] "A" 0 10).map
      Prod.snd) 3 = none ∧
    tsView (playerData [({ date := 0, player := "B", stat := some 1 } : Row)] "A" 0 10) 3
      = none := by
  have hp : playerData [({ date := 0, player := "B", stat := some 1 } : Row)] "A" 0 10 = [] := by
    decide
  exact ⟨hp,
    (C5_empty_no_data [({ date := 0, player := "B", stat := some 1 } : Row)] "A" 0 10 3 hp).1,
    (C5_empty_no_data [({ date := 0, player := "B", stat := some 1 } : Row)] "A" 0 10 3 hp).2⟩

/-- Two rows of one player whose dates arrive out of order. -/
def c6rows : List Row :=
  [{ date := 5, player := "A", stat := some 1 },
   { date := 3, player := "A", stat := some 2 }]

/-- C6 counterexample: on an input dataset whose rows are not sorted by
date, the sequence handed to the time-series view keeps the input order
(dates 5 then 3), so it is not sorted ascending by date as the claim
states. -/
theorem C6_counterexample_unsorted :
    ¬ List.Sorted (· ≤ ·) ((playerData c6rows "A" 0 10).map Prod.fst) := by
  intro hs
  have hl : (playerData c6rows "A" 0 10).map Prod.fst = [5, 3] := by decide
  rw [hl] at hs
  rcases List.sorted_cons.mp hs with ⟨h5, _⟩
  have h53 : (5 : Int) ≤ 3 := h5 3 (by simp)
  omega

/-- C6 amended: the Selection Filter output consumed by the time-series
view preserves the input dataset order — it is an order-preserving
subsequence of the (date, value) sequence of the dataset — and is not re-sorted
by date. -/
theorem C6_amended_order_preserved (rows : List Row) (selected_player : String)
    (start_date end_date : Int) :
    List.Sublist (playerData rows selected_player start_date end_date)
      (rows.filterMap (fun r => r.stat.map (fun v => (r.date, v)))) := by
  unfold playerData player_df_rows filtered_df
  exact ((List.filter_sublist _).trans (List.filter_sublist _)).filterMap _

/-- C7 counterexample: for the filtered selection whose single observed
value is 0, the maximum observed value is 0 but the widget maximum is
100.0 (the code falls back whenever `max_val > 0` fails), refuting the
claim that the maximum bound always equals the maximum observed value. -/
theorem C7_counterexample_zero_max :
    seriesMax [(0:ℚ)] = 0 ∧ (thresholdWidget [(0:ℚ)]).maxValue = 100 := by
  constructor
  · rfl
  · norm_num [thresholdWidget, max_val, seriesMax]

/-- C7 amended: the threshold input has minimum 0; its maximum is the
maximum observed value of the filtered selection when that maximum is
positive and 100.0 otherwise (hence 100.0 for an empty selection); its
default is the median of the filtered selection, or 0.0 when the
selection is empty. -/
theorem C7_amended_threshold_widget (vals : List ℚ) :
    (thresholdWidget vals).minValue = 0 ∧
    (vals ≠ [] → 0 < seriesMax vals → (thresholdWidget vals).maxValue = seriesMax vals) ∧
    (vals ≠ [] → ¬ 0 < seriesMax vals → (thresholdWidget vals).maxValue = 100) ∧
    (vals = [] → (thresholdWidget vals).maxValue = 100) ∧
    (vals ≠ [] → (thresholdWidget vals).value = seriesMedian vals) ∧
    (vals = [] → (thresholdWidget vals).value = 0) := by
  refine ⟨rfl, ?_, ?_, ?_, ?_, ?_⟩
  · intro hne hpos
    simp [thresholdWidget, max_val, List.isEmpty_iff, hne, hpos]
  · intro hne hneg
    simp [thresholdWidget, max_val, List.isEmpty_iff, hne, hneg]
  · intro he
    subst he
    norm_num [thresholdWidget, max_val]
  · intro hne
    simp [thresholdWidget, default_thresh, List.isEmpty_iff, hne]
  · intro he
    subst he
    simp [thresholdWidget, default_thresh]

/-- C7 witness: on the selection with values 2 and 4 the widget minimum is
0, the maximum is the observed maximum 4, and the default is the median 3;
on the empty selection the default is 0. -/
theorem C7_amended_threshold_widget_witness :
    (thresholdWidget [(2:ℚ), 4]).minValue = 0 ∧
    (thresholdWidget [(2:ℚ), 4]).maxValue = seriesMax [(2:ℚ), 4] ∧
    (thresholdWidget [(2:ℚ), 4]).value = seriesMedian [(2:ℚ), 4] ∧
    (thresholdWidget ([] : List ℚ)).value = 0 :=
  ⟨(C7_amended_threshold_widget [2, 4]).1,
   (C7_amended_threshold_widget [2, 4]).2.1 (by decide) (by decide),
   (C7_amended_threshold_widget [2, 4]).2.2.2.2.1 (by decide),
   (C7_amended_threshold_widget []).2.2.2.2.2 rfl⟩

end NBAAnalysis

namespace NBAAnalysis

/-- C8: for every dataset, player, and date range with start before or
equal to end, the Selection Filter keeps exactly the rows whose player
field equals the selected player by exact string comparison and whose date
lies in the inclusive range, with the stat coerced to numeric and the
non-numeric or missing rows excluded: membership in the output is
characterised row by row. -/
theorem C8_selection_filter (rows : List Row) (selected_player : String)
    (start_date end_date : Int) (hrange : start_date ≤ end_date)
    (d : Int) (v : ℚ) :
    (d, v) ∈ playerData rows selected_player start_date end_date ↔
      ∃ r ∈ rows, r.player = selected_player ∧ start_date ≤ r.date ∧ r.date ≤ end_date ∧
        r.date = d ∧ r.stat = some v := by
  unfold playerData player_df_rows filtered_df
  simp only [List.mem_filterMap, List.mem_filter, Option.map_eq_some', decide_eq_true_eq,
    beq_iff_eq, Prod.mk.injEq]
  constructor
  · rintro ⟨r, ⟨⟨hr, hd1, hd2⟩, hp⟩, w, hw, hva, hvb⟩
    exact ⟨r, hr, hp, hd1, hd2, hva, by rw [hw, hvb]⟩
  · rintro ⟨r, hr, hp, hd1, hd2, hdd, hst⟩
    exact ⟨r, ⟨⟨hr, hd1, hd2⟩, hp⟩, v, hst, hdd, rfl⟩

/-- C8 witness: the single matching row of a one-row dataset is
characterised by the filter on the inclusive range [0, 5]. -/
theorem C8_selection_filter_witness :
    (((3:Int), (7:ℚ)) ∈ playerData [({ date := 3, player := "A", stat := some 7 } : Row)]
        "A" 0 5 ↔
      ∃ r ∈ [({ date := 3, player := "A", stat := some 7 } : Row)],
        r.player = "A" ∧ (0:Int) ≤ r.date ∧ r.date ≤ 5 ∧ r.date = 3 ∧ r.stat = some 7) :=
  C8_selection_filter [({ date := 3, player := "A", stat := some 7 } : Row)] "A" 0 5
    (by decide) 3 7

/-- The dataframe bindings alive in one rerun of the script: the loaded
source (line 20) and the derived frames of lines 82-87.  Writing a column
of a dataframe is modelled by replacing the matching frame field. -/
structure Session where
  nba_logs_df : List Row
  filtered_frame : List Row
  player_frame : List Row
deriving DecidableEq

/-- Session at the top of a rerun: the source is loaded, the derived frames
are not yet bound. -/
def loadSession (rows : List Row) : Session :=
  { nba_logs_df := rows, filtered_frame := [], player_frame := [] }

/-- Line 82: bind filtered_df from the source frame. -/
def stepFilterDates (s : Session) (start_date end_date : Int) : Session :=
  { s with filtered_frame :=
      s.nba_logs_df.filter (fun r => decide (start_date ≤ r.date ∧ r.date ≤ end_date)) }

/-- Line 83: bind player_df to a copy of the matching filtered rows; the
`.copy()` means later column writes touch only this frame. -/
def stepSelectPlayer (s : Session) (selected_player : String) : Session :=
  { s with player_frame := s.filtered_frame.filter (fun r => r.player == selected_player) }

/-- Line 86: `player_df[selected_stat] = pd.to_numeric(...)` rewrites the
stat column of the copied frame cell by cell (on this already-coerced
representation each cell is rewritten with its own value). -/
def stepCoerceStat (s : Session) : Session :=
  { s with player_frame := s.player_frame.map (fun r => { r with stat := r.stat }) }

/-- Line 87: `player_df = player_df.dropna(subset=[selected_stat])`. -/
def stepDropna (s : Session) : Session :=
  { s with player_frame := s.player_frame.filter (fun r => r.stat.isSome) }

/-- Lines 82-87 in program order. -/
def runSelection (s : Session) (selected_player : String)
    (start_date end_date : Int) : Session :=
  stepDropna (stepCoerceStat
    (stepSelectPlayer (stepFilterDates s start_date end_date) selected_player))

/-- One full rerun of the script body for the given widget inputs: the
selection steps, then both chart sections; returns the final session and
the two rendered outputs. -/
def rerun (s : Session) (selected_player : String) (start_date end_date : Int)
    (threshold : ℚ) : Session × Option Breakdown × Option ChronoReport :=
  let s1 := runSelection s selected_player start_date end_date
  let data := s1.player_frame.filterMap (fun r => r.stat.map (fun v => (r.date, v)))
  (s1, pieView (data.map Prod.snd) threshold, tsView data threshold)

/-- The stat-column rewrite of line 86 leaves the copied frame equal to
itself on this representation. -/
theorem stepCoerceStat_frame (l : List Row) :
    l.map (fun r => { r with stat := r.stat }) = l := by
  induction l with
  | nil => rfl
  | cons r rs ih => rw [List.map_cons, ih]

/-- Dropping the NaN rows first does not change the (date, value) pairs the
chart sections extract. -/
theorem filterMap_dropna (l : List Row) :
    (l.filter (fun r => r.stat.isSome)).filterMap
        (fun r => r.stat.map (fun v => (r.date, v)))
      = l.filterMap (fun r => r.stat.map (fun v => (r.date, v))) := by
  induction l with
  | nil => rfl
  | cons r rs ih =>
    cases h : r.stat <;> simp [List.filter_cons, List.filterMap_cons, h, ih]

/-- The (date, value) pairs extracted from the final session frame are the
Selection Filter output. -/
theorem runSelection_data (rows : List Row) (selected_player : String)
    (start_date end_date : Int) :
    ((runSelection (loadSession rows) selected_player start_date end_date).player_frame).filterMap
        (fun r => r.stat.map (fun v => (r.date, v)))
      = playerData rows selected_player start_date end_date := by
  show (((rows.filter (fun r => decide (start_date ≤ r.date ∧ r.date ≤ end_date))).filter
      (fun r => r.player == selected_player)).map (fun r => { r with stat := r.stat })
        |>.filter (fun r => r.stat.isSome)).filterMap
      (fun r => r.stat.map (fun v => (r.date, v)))
    = playerData rows selected_player start_date end_date
  rw [stepCoerceStat_frame, filterMap_dropna]
  rfl

/-- C9: running the whole pipeline (selection filtering, numeric coercion,
classification and both aggregations) leaves the loaded source dataset
unchanged, and both rendered views are pure functions of the source and
the inputs (new derived values, never mutations of the source rows). -/
theorem C9_source_unchanged (rows : List Row) (selected_player : String)
    (start_date end_date : Int) (threshold : ℚ) :
    (rerun (loadSession rows) selected_player start_date end_date threshold).1.nba_logs_df
      = rows ∧
    (rerun (loadSession rows) selected_player start_date end_date threshold).2.1
      = pieView ((playerData rows selected_player start_date end_date).map Prod.snd)
          threshold ∧
    (rerun (loadSession rows) selected_player start_date end_date threshold).2.2
      = tsView (playerData rows selected_player start_date end_date) threshold := by
  refine ⟨rfl, ?_, ?_⟩ <;>
    rw [rerun, runSelection_data rows selected_player start_date end_date]

/-- The wedge labels of the distribution view are the sorted distinct
values. -/
theorem stat_counts_index (vals : List ℚ) :
    (stat_counts vals).map Prod.fst = sortAsc vals.dedup := by
  unfold stat_counts
  rw [List.map_map]
  exact List.map_id _

/-- The sorted dedup of the values is strictly increasing. -/
theorem sortAsc_dedup_strict (vals : List ℚ) :
    (sortAsc vals.dedup).Pairwise (· < ·) := by
  have hs : (sortAsc vals.dedup).Pairwise (· ≤ ·) :=
    List.sorted_insertionSort (· ≤ ·) vals.dedup
  have hn : (sortAsc vals.dedup).Nodup :=
    ((List.perm_insertionSort (· ≤ ·) vals.dedup).nodup_iff).mpr (List.nodup_dedup vals)
  exact (hs.and hn).imp (fun h => lt_of_le_of_ne h.1 h.2)

/-- C10: for every non-empty filtered sequence the distribution summary has
exactly one entry per distinct stat value, lists the distinct values in
strictly ascending numeric order, reaches every observed value, and pairs
each value with the number of rows carrying it. -/
theorem C10_stat_counts_shape (vals : List ℚ) (h : vals ≠ []) :
    ((stat_counts vals).map Prod.fst).Pairwise (· < ·) ∧
    (∀ v : ℚ, v ∈ (stat_counts vals).map Prod.fst ↔ v ∈ vals) ∧
    ∀ vc ∈ stat_counts vals, vc.2 = vals.count vc.1 := by
  refine ⟨?_, ?_, ?_⟩
  · rw [stat_counts_index]
    exact sortAsc_dedup_strict vals
  · intro v
    rw [stat_counts_index]
    unfold sortAsc
    rw [(List.perm_insertionSort (· ≤ ·) vals.dedup).mem_iff]
    exact List.mem_dedup
  · intro vc hvc
    rcases List.mem_map.mp hvc with ⟨w, hw, hwe⟩
    rw [← hwe]

/-- C10 witness: on the values 10, 10, 15 the distribution summary shape
holds. -/
theorem C10_stat_counts_shape_witness :
    ((stat_counts [(10:ℚ), 10, 15]).map Prod.fst).Pairwise (· < ·) ∧
    (∀ v : ℚ, v ∈ (stat_counts [(10:ℚ), 10, 15]).map Prod.fst ↔ v ∈ [(10:ℚ), 10, 15]) ∧
    ∀ vc ∈ stat_counts [(10:ℚ), 10, 15], vc.2 = [(10:ℚ), 10, 15].count vc.1 :=
  C10_stat_counts_shape [10, 10, 15] (by decide)

end NBAAnalysis
